import Mathlib

/-!
Verification of the salt flux decomposition (`src/decomposition.py`, class `SFD`).

The development contains four shallow embeddings of the code, each one used for
the kind of claim it is faithful to:

* a typed value model over `ℚ` for three-axis arrays of shape `(T, S, D)` with
  the default axis configuration (`time_axis = 0`, `depth_axis = -1`), in which
  the component and flux computations of `SFD` are carried out exactly;
* a general `NDArr` model (a shape together with an indexing function) with
  numpy's axis normalisation, reductions, `expand_dims` and broadcasting, used
  for the claims about shapes, axis bookkeeping and constructor validation;
* a masked-scalar model (`Option ℚ` with `numpy.ma` arithmetic) for the claim
  about division by a zero or fully masked cross-section;
* an explicit cache-state model for the lazy memoisation of the four fluxes.
-/

namespace SFD

/-- A three-axis array of shape `(T, S, D)`: time, space, depth.  This is the
layout documented in `SFD`'s docstring, with the default axes
`time_axis = 0` and `depth_axis = -1`. -/
abbrev Field (T S D : ℕ) : Type := Fin T → Fin S → Fin D → ℚ

/-- `SFD.avg_time` (`np.ma.mean(variable, axis=self.time_axis)`) applied to a
three-axis `(T, S, D)` array with the default `time_axis = 0`. -/
def avg_time {T S D : ℕ} (v : Field T S D) : Fin S → Fin D → ℚ :=
  fun x d => (∑ t, v t x d) / (T : ℚ)

/-- `SFD.avg_time` applied to a two-axis `(T, S)` array (as happens inside
`avg_time_int_depth` and in `flux2`): with the default `time_axis = 0` the
first axis is averaged. -/
def avg_timeTS {T S : ℕ} (v : Fin T → Fin S → ℚ) : Fin S → ℚ :=
  fun x => (∑ t, v t x) / (T : ℚ)

/-- `SFD.int_depth` (`np.ma.sum(variable, axis=self.depth_axis)`) applied to a
three-axis `(T, S, D)` array with the default `depth_axis = -1`. -/
def int_depth {T S D : ℕ} (v : Field T S D) : Fin T → Fin S → ℚ :=
  fun t x => ∑ d, v t x d

/-- `SFD.int_depth` applied to a two-axis `(S, D)` array (as happens in
`flux3`): with the default `depth_axis = -1` the last axis is summed. -/
def int_depthSD {S D : ℕ} (v : Fin S → Fin D → ℚ) : Fin S → ℚ :=
  fun x => ∑ d, v x d

/-- `SFD.avg_time_int_depth`: `self.avg_time(self.int_depth(variable))`. -/
def avg_time_int_depth {T S D : ℕ} (v : Field T S D) : Fin S → ℚ :=
  avg_timeTS (int_depth v)

/-- `SFD.component1`: `self._component(self.avg_time_int_depth, variable)`,
i.e. `avg_time_int_depth(variable * cross_section) / avg_time_int_depth(cross_section)`.
The first argument `a` is the instance's `cross_section`. -/
def component1 {T S D : ℕ} (a v : Field T S D) : Fin S → ℚ :=
  fun x => avg_time_int_depth (v * a) x / avg_time_int_depth a x

/-- `SFD.component2`: `self._component(self.int_depth, variable) - self.expand_time(comp1)`,
with `comp1` defaulting to `self.component1(variable)` when not supplied.
`expand_time` inserts a size-1 time axis; the subsequent numpy broadcast over
the time axis is represented by subtracting `comp1 x` independently of `t`. -/
def component2 {T S D : ℕ} (a v : Field T S D)
    (comp1 : Option (Fin S → ℚ)) : Fin T → Fin S → ℚ :=
  fun t x =>
    int_depth (v * a) t x / int_depth a t x - (comp1.getD (component1 a v)) x

/-- `SFD.component_`: `variable - self.expand_depth(comp2 + self.expand_time(comp1))`,
with `comp1` defaulting to `component1(variable)` and `comp2` to
`component2(variable, comp1=comp1)`.  `expand_depth`/`expand_time` insert
size-1 axes; the numpy broadcast is represented by ignoring `d` (and `t`). -/
def component_ {T S D : ℕ} (a v : Field T S D)
    (comp1 : Option (Fin S → ℚ)) (comp2 : Option (Fin T → Fin S → ℚ)) :
    Field T S D :=
  fun t x d =>
    v t x d -
      ((comp2.getD (component2 a v (some (comp1.getD (component1 a v))))) t x +
        (comp1.getD (component1 a v)) x)

/-- `SFD.component3`: if `var_is_comp_` is false the variable is first replaced
by `self.component_(variable)`; then `self._component(self.avg_time, variable)`. -/
def component3 {T S D : ℕ} (a v : Field T S D) (var_is_comp_ : Bool) :
    Fin S → Fin D → ℚ :=
  let w := if var_is_comp_ then v else component_ a v none none
  fun x d => avg_time (w * a) x d / avg_time a x d

/-- `SFD.component4`: if `var_is_comp_` is false the variable is first replaced
by `self.component_(variable)`; `comp3` defaults to
`self.component3(variable, var_is_comp_=True)`; the result is
`variable - self.expand_time(comp3)` (broadcast over the time axis). -/
def component4 {T S D : ℕ} (a v : Field T S D) (var_is_comp_ : Bool)
    (comp3 : Option (Fin S → Fin D → ℚ)) : Field T S D :=
  let w := if var_is_comp_ then v else component_ a v none none
  let c3 := comp3.getD (component3 a w true)
  fun t x d => w t x d - c3 x d

/-- `SFD._calc_flux`: `f_comp(self.flow) * f_comp(self.salinity) * f_cross_section(self.cross_section)`. -/
def calc_flux {T S D : ℕ} {α : Type} [Mul α] (u s a : Field T S D)
    (f_comp : Field T S D → α) (f_cross_section : Field T S D → α) : α :=
  f_comp u * f_comp s * f_cross_section a

/-- `SFD.flux1`: `self._calc_flux(self.component1, self.avg_time_int_depth)`
(no outer reduction is applied in the code). -/
def flux1 {T S D : ℕ} (u s a : Field T S D) : Fin S → ℚ :=
  calc_flux u s a (component1 a) avg_time_int_depth

/-- `SFD.flux2`: `self.avg_time(self._calc_flux(self.component2, self.int_depth))`;
the product is a `(T, S)` array, so `avg_time` here averages its first axis. -/
def flux2 {T S D : ℕ} (u s a : Field T S D) : Fin S → ℚ :=
  avg_timeTS (calc_flux u s a (fun v => component2 a v none) int_depth)

/-- `SFD.flux3`: `self.int_depth(self._calc_flux(self.component3, self.avg_time))`;
the product is an `(S, D)` array, so `int_depth` here sums its last axis. -/
def flux3 {T S D : ℕ} (u s a : Field T S D) : Fin S → ℚ :=
  int_depthSD (calc_flux u s a (fun v => component3 a v false) avg_time)

/-- `SFD.flux4`: `self.avg_time_int_depth(self._calc_flux(self.component4, lambda x: x))`. -/
def flux4 {T S D : ℕ} (u s a : Field T S D) : Fin S → ℚ :=
  avg_time_int_depth (calc_flux u s a (fun v => component4 a v false none) (fun x => x))

/-- `SFD.fluxes`: `return self.flux1, self.flux2, self.flux3, self.flux4`. -/
def fluxes {T S D : ℕ} (u s a : Field T S D) :
    (Fin S → ℚ) × (Fin S → ℚ) × (Fin S → ℚ) × (Fin S → ℚ) :=
  (flux1 u s a, flux2 u s a, flux3 u s a, flux4 u s a)

/-! Unfolding lemmas for component calls with omitted optional arguments. -/

lemma component2_some {T S D : ℕ} (a v : Field T S D) (c : Fin S → ℚ)
    (t : Fin T) (x : Fin S) :
    component2 a v (some c) t x =
      int_depth (v * a) t x / int_depth a t x - c x := rfl

lemma component2_none {T S D : ℕ} (a v : Field T S D) (t : Fin T) (x : Fin S) :
    component2 a v none t x =
      int_depth (v * a) t x / int_depth a t x - component1 a v x := rfl

lemma component_none {T S D : ℕ} (a v : Field T S D) (t : Fin T) (x : Fin S) (d : Fin D) :
    component_ a v none none t x d =
      v t x d - (component2 a v none t x + component1 a v x) := by
  simp only [component_, component2, Option.getD_none, Option.getD_some]

lemma component3_false {T S D : ℕ} (a v : Field T S D) (x : Fin S) (d : Fin D) :
    component3 a v false x d =
      avg_time (component_ a v none none * a) x d / avg_time a x d := rfl

lemma component4_false {T S D : ℕ} (a v : Field T S D) (t : Fin T) (x : Fin S) (d : Fin D) :
    component4 a v false none t x d =
      component_ a v none none t x d - component3 a v false x d := by
  simp only [component4, component3, Option.getD_none, Bool.false_eq_true,
    if_false, if_true]

/-! ### The additive decomposition (claim C1)

The proof follows the structure of the code: every field is split pointwise as
`component1 + component2 + component3 + component4`, the triple product is
expanded, and all cross terms vanish by the three orthogonality lemmas below.
`decomp_sum` is the pure summation skeleton of that argument. -/

lemma decomp_sum {T D : ℕ} (U V A : Fin T → Fin D → ℚ)
    (c1u c1s : ℚ) (c2u c2s : Fin T → ℚ) (c3u c3s : Fin D → ℚ)
    (c4u c4s : Fin T → Fin D → ℚ)
    (hU : ∀ t d, U t d = c1u + c2u t + c3u d + c4u t d)
    (hV : ∀ t d, V t d = c1s + c2s t + c3s d + c4s t d)
    (hL1u : ∑ t, c2u t * ∑ d, A t d = 0)
    (hL1s : ∑ t, c2s t * ∑ d, A t d = 0)
    (hL2u : ∀ t, ∑ d, (c3u d + c4u t d) * A t d = 0)
    (hL2s : ∀ t, ∑ d, (c3s d + c4s t d) * A t d = 0)
    (hL3u : ∀ d, ∑ t, c4u t d * A t d = 0)
    (hL3s : ∀ d, ∑ t, c4s t d * A t d = 0) :
    ∑ t, ∑ d, U t d * V t d * A t d
      = c1u * c1s * ∑ t, ∑ d, A t d
        + (∑ t, c2u t * c2s t * ∑ d, A t d)
        + (∑ d, c3u d * c3s d * ∑ t, A t d)
        + ∑ t, ∑ d, c4u t d * c4s t d * A t d := by
  have expand : ∑ t, ∑ d, U t d * V t d * A t d
      = ∑ t, ∑ d, (c1u * c1s * A t d
          + c1u * (c2s t * A t d)
          + c1u * ((c3s d + c4s t d) * A t d)
          + c1s * (c2u t * A t d)
          + c1s * ((c3u d + c4u t d) * A t d)
          + c2u t * c2s t * A t d
          + c2u t * ((c3s d + c4s t d) * A t d)
          + c2s t * ((c3u d + c4u t d) * A t d)
          + c3u d * c3s d * A t d
          + c3u d * (c4s t d * A t d)
          + c3s d * (c4u t d * A t d)
          + c4u t d * c4s t d * A t d) := by
    refine Finset.sum_congr rfl fun t _ => Finset.sum_congr rfl fun d _ => ?_
    rw [hU t d, hV t d]; ring
  rw [expand]
  simp only [Finset.sum_add_distrib]
  have h1 : ∑ t, ∑ d, c1u * c1s * A t d = c1u * c1s * ∑ t, ∑ d, A t d := by
    simp only [← Finset.mul_sum]
  have h2 : ∑ t, ∑ d, c1u * (c2s t * A t d) = 0 := by
    simp only [← Finset.mul_sum, hL1s, mul_zero]
  have h3 : ∑ t, ∑ d, c1u * ((c3s d + c4s t d) * A t d) = 0 := by
    simp only [← Finset.mul_sum, hL2s, mul_zero, Finset.sum_const_zero]
  have h4 : ∑ t, ∑ d, c1s * (c2u t * A t d) = 0 := by
    simp only [← Finset.mul_sum, hL1u, mul_zero]
  have h5 : ∑ t, ∑ d, c1s * ((c3u d + c4u t d) * A t d) = 0 := by
    simp only [← Finset.mul_sum, hL2u, mul_zero, Finset.sum_const_zero]
  have h7 : ∑ t, ∑ d, c2u t * ((c3s d + c4s t d) * A t d) = 0 := by
    simp only [← Finset.mul_sum, hL2s, mul_zero, Finset.sum_const_zero]
  have h8 : ∑ t, ∑ d, c2s t * ((c3u d + c4u t d) * A t d) = 0 := by
    simp only [← Finset.mul_sum, hL2u, mul_zero, Finset.sum_const_zero]
  have h9 : ∑ t, ∑ d, c3u d * c3s d * A t d
      = ∑ d, c3u d * c3s d * ∑ t, A t d := by
    rw [Finset.sum_comm]
    simp only [← Finset.mul_sum]
  have h10 : ∑ t, ∑ d, c3u d * (c4s t d * A t d) = 0 := by
    rw [Finset.sum_comm]
    simp only [← Finset.mul_sum, hL3s, mul_zero, Finset.sum_const_zero]
  have h11 : ∑ t, ∑ d, c3s d * (c4u t d * A t d) = 0 := by
    rw [Finset.sum_comm]
    simp only [← Finset.mul_sum, hL3u, mul_zero, Finset.sum_const_zero]
  have h6 : ∑ t, ∑ d, c2u t * c2s t * A t d
      = ∑ t, c2u t * c2s t * ∑ d, A t d := by
    simp only [← Finset.mul_sum]
  rw [h1, h2, h3, h4, h5, h6, h7, h8, h9, h10, h11]
  ring

/-- Summation skeleton of the orthogonality of `component2` against the
depth-integrated cross-section: the cross-section-weighted time total of the
tidal deviation vanishes. -/
lemma orth2 {T : ℕ} (P Q : Fin T → ℚ) (hT : (T : ℚ) ≠ 0)
    (hSQ : (∑ t, Q t) ≠ 0) (hQ : ∀ t, Q t ≠ 0) :
    ∑ t, (P t / Q t -
      ((∑ t', P t') / (T : ℚ)) / ((∑ t', Q t') / (T : ℚ))) * Q t = 0 := by
  have key : ∀ t : Fin T, (P t / Q t -
      ((∑ t', P t') / (T : ℚ)) / ((∑ t', Q t') / (T : ℚ))) * Q t
      = P t - ((∑ t', P t') / (T : ℚ)) / ((∑ t', Q t') / (T : ℚ)) * Q t :=
    fun t => by rw [sub_mul, div_mul_cancel₀ _ (hQ t)]
  rw [Finset.sum_congr rfl fun t _ => key t, Finset.sum_sub_distrib,
    ← Finset.mul_sum, div_div_div_cancel_right₀ hT,
    div_mul_cancel₀ _ hSQ, sub_self]

/-- Orthogonality of `component2`: at any space location where all
denominators are nonzero, `∑ t, component2 t x * int_depth(cross_section) t x`
vanishes. -/
lemma component2_orthogonal {T S D : ℕ} (a v : Field T S D) (x : Fin S)
    (hT : (T : ℚ) ≠ 0) (hA : (∑ t, ∑ d, a t x d) ≠ 0)
    (h2 : ∀ t, (∑ d, a t x d) ≠ 0) :
    ∑ t, component2 a v none t x * ∑ d, a t x d = 0 := by
  simp only [component2_none, component1, avg_time_int_depth, avg_timeTS,
    int_depth, Pi.mul_apply]
  exact orth2 (fun t => ∑ d, v t x d * a t x d) (fun t => ∑ d, a t x d) hT hA h2

/-- Orthogonality of the remainder `component_`: at each time step with a
nonzero depth-integrated cross-section, the cross-section-weighted depth total
of the remainder vanishes. -/
lemma component_rem_orthogonal {T S D : ℕ} (a v : Field T S D)
    (t : Fin T) (x : Fin S) (h2t : (∑ d, a t x d) ≠ 0) :
    ∑ d, component_ a v none none t x d * a t x d = 0 := by
  have key : ∀ d : Fin D, component_ a v none none t x d * a t x d
      = v t x d * a t x d -
        (∑ d', v t x d' * a t x d') / (∑ d', a t x d') * a t x d := by
    intro d
    rw [component_none, component2_none]
    simp only [int_depth, Pi.mul_apply]
    ring
  rw [Finset.sum_congr rfl fun d _ => key d, Finset.sum_sub_distrib,
    ← Finset.mul_sum, div_mul_cancel₀ _ h2t, sub_self]

/-- Orthogonality of `component4`: at each depth with a nonzero time-averaged
cross-section, the cross-section-weighted time total of the shear deviation
vanishes. -/
lemma component4_orthogonal {T S D : ℕ} (a v : Field T S D)
    (x : Fin S) (d : Fin D) (hT : (T : ℚ) ≠ 0)
    (h3d : (∑ t, a t x d) ≠ 0) :
    ∑ t, component4 a v false none t x d * a t x d = 0 := by
  have key : ∀ t : Fin T, component4 a v false none t x d * a t x d
      = (component_ a v none none t x d * a t x d) -
        (((∑ t', component_ a v none none t' x d * a t' x d) / (T : ℚ)) /
          ((∑ t', a t' x d) / (T : ℚ))) * a t x d := by
    intro t
    rw [component4_false, component3_false]
    simp only [avg_time, Pi.mul_apply]
    ring
  rw [Finset.sum_congr rfl fun t _ => key t, Finset.sum_sub_distrib,
    ← Finset.mul_sum, div_div_div_cancel_right₀ hT, div_mul_cancel₀ _ h3d,
    sub_self]

/-- Every field decomposes pointwise into the sum of its four components; this
holds unconditionally because the remainder construction telescopes. -/
lemma component_sum {T S D : ℕ} (a v : Field T S D)
    (t : Fin T) (x : Fin S) (d : Fin D) :
    v t x d = component1 a v x + component2 a v none t x
      + component3 a v false x d + component4 a v false none t x d := by
  rw [component4_false, component_none]
  ring

/-- C1: for every valid input triple of identical shape, the product
`flow * salinity * cross_section` reduced by `avg_time_int_depth` equals
`flux1 + flux2 + flux3 + flux4` at every space location, exactly over `ℚ`,
whenever no denominator vanishes (the time-axis length, the reduced
cross-sections entering `component1`, `component2` and `component3`). -/
theorem salt_flux_decomposition {T S D : ℕ} (u s a : Field T S D) (x : Fin S)
    (hT : (T : ℚ) ≠ 0)
    (hA : avg_time_int_depth a x ≠ 0)
    (h2 : ∀ t, int_depth a t x ≠ 0)
    (h3 : ∀ d, avg_time a x d ≠ 0) :
    avg_time_int_depth (u * s * a) x
      = flux1 u s a x + flux2 u s a x + flux3 u s a x + flux4 u s a x := by
  have hA' : (∑ t, ∑ d, a t x d) ≠ 0 := fun h =>
    hA (by simp only [avg_time_int_depth, avg_timeTS, int_depth, h, zero_div])
  have h2' : ∀ t, (∑ d, a t x d) ≠ 0 := fun t => h2 t
  have h3' : ∀ d, (∑ t, a t x d) ≠ 0 := fun d h =>
    h3 d (by simp only [avg_time, h, zero_div])
  have hL2u : ∀ t, ∑ d, (component3 a u false x d
      + component4 a u false none t x d) * a t x d = 0 := by
    intro t
    have hpt : ∀ d : Fin D, (component3 a u false x d
        + component4 a u false none t x d) * a t x d
        = component_ a u none none t x d * a t x d := fun d => by
      rw [component4_false]; ring
    rw [Finset.sum_congr rfl fun d _ => hpt d]
    exact component_rem_orthogonal a u t x (h2' t)
  have hL2s : ∀ t, ∑ d, (component3 a s false x d
      + component4 a s false none t x d) * a t x d = 0 := by
    intro t
    have hpt : ∀ d : Fin D, (component3 a s false x d
        + component4 a s false none t x d) * a t x d
        = component_ a s none none t x d * a t x d := fun d => by
      rw [component4_false]; ring
    rw [Finset.sum_congr rfl fun d _ => hpt d]
    exact component_rem_orthogonal a s t x (h2' t)
  have key : ∑ t, ∑ d, u t x d * s t x d * a t x d
      = component1 a u x * component1 a s x * ∑ t, ∑ d, a t x d
        + (∑ t, component2 a u none t x * component2 a s none t x *
            ∑ d, a t x d)
        + (∑ d, component3 a u false x d * component3 a s false x d *
            ∑ t, a t x d)
        + ∑ t, ∑ d, component4 a u false none t x d *
            component4 a s false none t x d * a t x d :=
    decomp_sum (fun t d => u t x d) (fun t d => s t x d) (fun t d => a t x d)
      (component1 a u x) (component1 a s x)
      (fun t => component2 a u none t x) (fun t => component2 a s none t x)
      (fun d => component3 a u false x d) (fun d => component3 a s false x d)
      (fun t d => component4 a u false none t x d)
      (fun t d => component4 a s false none t x d)
      (fun t d => component_sum a u t x d)
      (fun t d => component_sum a s t x d)
      (component2_orthogonal a u x hT hA' h2')
      (component2_orthogonal a s x hT hA' h2')
      hL2u hL2s
      (fun d => component4_orthogonal a u x d hT (h3' d))
      (fun d => component4_orthogonal a s x d hT (h3' d))
  have lhs : avg_time_int_depth (u * s * a) x
      = (∑ t, ∑ d, u t x d * s t x d * a t x d) / (T : ℚ) := by
    simp only [avg_time_int_depth, avg_timeTS, int_depth, Pi.mul_apply]
  have f1 : flux1 u s a x = component1 a u x * component1 a s x *
      ((∑ t, ∑ d, a t x d) / (T : ℚ)) := by
    simp only [flux1, calc_flux, Pi.mul_apply, avg_time_int_depth,
      avg_timeTS, int_depth]
  have f2 : flux2 u s a x = (∑ t, component2 a u none t x *
      component2 a s none t x * ∑ d, a t x d) / (T : ℚ) := by
    simp only [flux2, calc_flux, avg_timeTS, Pi.mul_apply, int_depth]
  have f3 : flux3 u s a x = ∑ d, component3 a u false x d *
      component3 a s false x d * ((∑ t, a t x d) / (T : ℚ)) := by
    simp only [flux3, calc_flux, int_depthSD, Pi.mul_apply, avg_time]
  have f4 : flux4 u s a x = (∑ t, ∑ d, component4 a u false none t x d *
      component4 a s false none t x d * a t x d) / (T : ℚ) := by
    simp only [flux4, calc_flux, avg_time_int_depth, avg_timeTS, int_depth,
      Pi.mul_apply]
  rw [lhs, key, f1, f2, f3, f4]
  rw [add_div, add_div, add_div]
  congr 1
  · congr 1
    · congr 1
      · rw [mul_div_assoc]
    · rw [Finset.sum_div]
      exact Finset.sum_congr rfl fun d _ => (mul_div_assoc _ _ _)

/-- A concrete `(1, 1, 1)`-shaped field of ones, used to instantiate the
decomposition theorem at an input where every denominator is nonzero. -/
def onesW : Field 1 1 1 := fun _ _ _ => 1

theorem salt_flux_decomposition_witness :
    (((1 : ℕ) : ℚ) ≠ 0
      ∧ avg_time_int_depth onesW 0 ≠ 0
      ∧ (∀ t, int_depth onesW t 0 ≠ 0)
      ∧ (∀ d, avg_time onesW 0 d ≠ 0))
    ∧ avg_time_int_depth (onesW * onesW * onesW) 0
      = flux1 onesW onesW onesW 0 + flux2 onesW onesW onesW 0
        + flux3 onesW onesW onesW 0 + flux4 onesW onesW onesW 0 := by
  have h1 : ((1 : ℕ) : ℚ) ≠ 0 := by norm_num
  have hA : avg_time_int_depth onesW 0 ≠ 0 := by
    norm_num [avg_time_int_depth, avg_timeTS, int_depth, onesW]
  have h2 : ∀ t, int_depth onesW t 0 ≠ 0 := by
    intro t; norm_num [int_depth, onesW]
  have h3 : ∀ d, avg_time onesW 0 d ≠ 0 := by
    intro d; norm_num [avg_time, onesW]
  exact ⟨⟨h1, hA, h2, h3⟩,
    salt_flux_decomposition onesW onesW onesW 0 h1 hA h2 h3⟩

/-! ### The literal spec formula for `flux1` (claim C2) -/

/-- The spec's `flux1` formula read literally:
`averageTimeIntegrateDepth( component1(drivingField) * component1(scalarField) * averageTimeIntegrateDepth(areaField) )`,
with the outer reduction applied to the component product, viewed (as the
broadcasting rules would view it) as constant along the time and depth axes.
This definition follows the spec's words, for comparison with the code's
`flux1`, which applies no outer reduction. -/
def flux1SpecFormula {T S D : ℕ} (u s a : Field T S D) : Fin S → ℚ :=
  @avg_time_int_depth T S D
    (fun _ x _ => component1 a u x * component1 a s x * avg_time_int_depth a x)

/-- A concrete `(1, 1, 2)`-shaped field of ones: on it the literal spec
formula for `flux1` disagrees with the code's `flux1`. -/
def onesB : Field 1 1 2 := fun _ _ _ => 1

/-- C2 counterexample: with shape `(1, 1, 2)` and all fields one, the code's
`flux1` is `2` while the spec's literal formula (outer reduction applied)
gives `4`; the outer depth integration scales the already-reduced product by
the depth-axis length. -/
theorem flux1_formula_counterexample :
    flux1SpecFormula onesB onesB onesB 0 ≠ flux1 onesB onesB onesB 0
      ∧ flux1 onesB onesB onesB 0 = 2
      ∧ flux1SpecFormula onesB onesB onesB 0 = 4 := by
  refine ⟨?_, ?_, ?_⟩ <;>
    norm_num [flux1SpecFormula, flux1, calc_flux, component1,
      avg_time_int_depth, avg_timeTS, int_depth, Pi.mul_apply, onesB,
      Fin.sum_univ_two, Fin.sum_univ_one]

/-- C2 amended: the code's `flux1` is the *unreduced* product
`component1(flow) * component1(salinity) * avg_time_int_depth(cross_section)`;
no outer reduction is applied (the product already carries only the space
axis). -/
theorem flux1_formula {T S D : ℕ} (u s a : Field T S D) (x : Fin S) :
    flux1 u s a x
      = component1 a u x * component1 a s x * avg_time_int_depth a x := rfl

/-! ### Uniform-field decomposition (claim C7) -/

/-- The uniform test input of `test_output_uniform`: flow ≡ 1. -/
def flowU : Field 10 10 10 := fun _ _ _ => 1

/-- The uniform test input of `test_output_uniform`: salinity ≡ 30. -/
def salinityU : Field 10 10 10 := fun _ _ _ => 30

/-- The uniform test input of `test_output_uniform`: cross-section ≡ 1. -/
def crossU : Field 10 10 10 := fun _ _ _ => 1

/-- Sum of a constant over `Fin n`. -/
lemma sum_fin_const (n : ℕ) (c : ℚ) : ∑ _i : Fin n, c = (n : ℚ) * c := by
  rw [Finset.sum_const, Finset.card_univ, Fintype.card_fin, nsmul_eq_mul]

/-- On constant fields with unit cross-section, `flux1` is the constant
product scaled by the depth count and the other three fluxes vanish (no
tidal, spatial or shear variability in a fully uniform system). -/
lemma uniform_flux_values (T S D : ℕ) (cu cs : ℚ)
    (hT : (T : ℚ) ≠ 0) (hD : (D : ℚ) ≠ 0) : ∀ x : Fin S,
    flux1 (fun _ _ _ => cu) (fun _ _ _ => cs)
        (fun _ _ _ => 1 : Field T S D) x = cu * cs * (D : ℚ)
    ∧ flux2 (fun _ _ _ => cu) (fun _ _ _ => cs)
        (fun _ _ _ => 1 : Field T S D) x = 0
    ∧ flux3 (fun _ _ _ => cu) (fun _ _ _ => cs)
        (fun _ _ _ => 1 : Field T S D) x = 0
    ∧ flux4 (fun _ _ _ => cu) (fun _ _ _ => cs)
        (fun _ _ _ => 1 : Field T S D) x = 0 := by
  set a : Field T S D := fun _ _ _ => 1 with ha
  have hc1 : ∀ (c : ℚ) (x : Fin S),
      component1 a (fun _ _ _ => c) x = c := by
    intro c x
    simp only [component1, avg_time_int_depth, avg_timeTS, int_depth,
      Pi.mul_apply, ha, mul_one, sum_fin_const,
      mul_div_cancel_left₀ _ hT, mul_div_cancel_left₀ _ hD]
  have hc2 : ∀ (c : ℚ) (t : Fin T) (x : Fin S),
      component2 a (fun _ _ _ => c) none t x = 0 := by
    intro c t x
    simp only [component2_none, int_depth, Pi.mul_apply, ha, mul_one,
      sum_fin_const, mul_div_cancel_left₀ _ hD, hc1, sub_self]
  have hrem : ∀ (c : ℚ) (t : Fin T) (x : Fin S) (d : Fin D),
      component_ a (fun _ _ _ => c) none none t x d = 0 := by
    intro c t x d
    simp only [component_none, hc2, hc1, zero_add, sub_self]
  have hc3 : ∀ (c : ℚ) (x : Fin S) (d : Fin D),
      component3 a (fun _ _ _ => c) false x d = 0 := by
    intro c x d
    simp only [component3_false, avg_time, Pi.mul_apply, hrem, zero_mul,
      Finset.sum_const_zero, zero_div]
  have hc4 : ∀ (c : ℚ) (t : Fin T) (x : Fin S) (d : Fin D),
      component4 a (fun _ _ _ => c) false none t x d = 0 := by
    intro c t x d
    simp only [component4_false, hrem, hc3, sub_self]
  intro x
  refine ⟨?_, ?_, ?_, ?_⟩
  · simp only [flux1, calc_flux, Pi.mul_apply, hc1, avg_time_int_depth,
      avg_timeTS, int_depth, ha, sum_fin_const, mul_one,
      mul_div_cancel_left₀ _ hT]
  · simp only [flux2, calc_flux, avg_timeTS, Pi.mul_apply, hc2, zero_mul,
      Finset.sum_const_zero, zero_div]
  · simp only [flux3, calc_flux, int_depthSD, Pi.mul_apply, hc3, zero_mul,
      Finset.sum_const_zero]
  · simp only [flux4, calc_flux, avg_time_int_depth, avg_timeTS, int_depth,
      Pi.mul_apply, hc4, zero_mul, Finset.sum_const_zero, zero_div]

/-- C7: on the uniform `(10, 10, 10)` input (flow ≡ 1, salinity ≡ 30,
cross-section ≡ 1), `flux1 = 300` and `flux2 = flux3 = flux4 = 0` at every
space location. -/
theorem uniform_fluxes : ∀ x : Fin 10,
    flux1 flowU salinityU crossU x = 300
    ∧ flux2 flowU salinityU crossU x = 0
    ∧ flux3 flowU salinityU crossU x = 0
    ∧ flux4 flowU salinityU crossU x = 0 := by
  intro x
  have h := uniform_flux_values 10 10 10 1 30 (by norm_num) (by norm_num) x
  exact ⟨h.1.trans (by norm_num), h.2.1, h.2.2.1, h.2.2.2⟩

/-! ### Optional precomputed components (claim C8) -/

/-- C8: each extraction function yields the same result whether its optional
upstream components are omitted or supplied precomputed via the same
formulas (`component2` with `comp1`, `component_` with `comp1`/`comp2`,
`component4` with `comp3`). -/
theorem component_precomputed {T S D : ℕ} (a v : Field T S D) :
    component2 a v (some (component1 a v)) = component2 a v none
    ∧ component_ a v (some (component1 a v))
        (some (component2 a v none)) = component_ a v none none
    ∧ component4 a v false (some (component3 a v false))
        = component4 a v false none := by
  refine ⟨rfl, ?_, ?_⟩
  · funext t x d
    rw [component_none]
    simp only [component_, Option.getD_some]
  · funext t x d
    rw [component4_false]
    simp only [component4, Option.getD_some, Bool.false_eq_true, if_false]

/-! ### Masked-array semantics for the normalised component (claim C6)

The input arrays may be `numpy` masked arrays.  A masked scalar is modelled
as `Option ℚ` (`none` = masked/invalid).  `numpy.ma` binary arithmetic
returns masked where an operand is masked, and its division is a domained
operation that additionally masks the result wherever the divisor is zero
(no exception is raised and no zero is silently produced). -/

/-- `numpy.ma` scalar multiplication: masked if either operand is masked. -/
def mmul : Option ℚ → Option ℚ → Option ℚ
  | some p, some q => some (p * q)
  | _, _ => none

/-- `numpy.ma` scalar division: masked if either operand is masked and —
being a domained operation — masked where the divisor is zero. -/
def mdiv : Option ℚ → Option ℚ → Option ℚ
  | some p, some q => if q = 0 then none else some (p / q)
  | _, _ => none

/-- `SFD._component` under masked-array semantics:
`func(variable * self.cross_section) / func(self.cross_section)` for an
arbitrary reduction `func`, read pointwise at each output location. -/
def mcomponent {ι κ : Type} (func : (ι → Option ℚ) → κ → Option ℚ)
    (cross_section v : ι → Option ℚ) : κ → Option ℚ :=
  fun loc =>
    mdiv (func (fun i => mmul (v i) (cross_section i)) loc)
      (func cross_section loc)

/-- C6: for every field and every reduction function, the normalised
component never raises at a location where the reduced cross-section is zero
or fully masked: the output there is the masked value, never a silent zero
and never an exception. -/
theorem component_masked_division {ι κ : Type}
    (func : (ι → Option ℚ) → κ → Option ℚ)
    (cross_section v : ι → Option ℚ) (loc : κ)
    (h : func cross_section loc = some 0 ∨ func cross_section loc = none) :
    mcomponent func cross_section v loc = none := by
  unfold mcomponent
  rcases h with h | h <;> rw [h] <;>
    cases func (fun i => mmul (v i) (cross_section i)) loc <;> simp [mdiv]

theorem component_masked_division_witness :
    ((fun (f : Fin 1 → Option ℚ) => f) (fun _ => some 0) (0 : Fin 1) = some 0
      ∨ (fun (f : Fin 1 → Option ℚ) => f) (fun _ => some 0) (0 : Fin 1) = none)
    ∧ mcomponent (fun (f : Fin 1 → Option ℚ) => f) (fun _ => some 0)
        (fun _ => some 1) (0 : Fin 1) = none :=
  ⟨Or.inl rfl,
    component_masked_division (fun f => f) (fun _ => some 0) (fun _ => some 1)
      0 (Or.inl rfl)⟩

/-! ### Lazy memoisation of the fluxes (claim C9)

`SFD.__init__` sets the private attributes `_flux0 = _flux1 = _flux3 =
_flux4 = None`; the properties `flux1`..`flux4` store their value in
`_flux0`, `_flux1`, `_flux3` and `_flux4` respectively on first access and
return the stored value afterwards.  The mutable attributes are modelled as
an explicit cache state threaded through accessor functions. -/

/-- The four optional cache slots `_flux0`, `_flux1`, `_flux3`, `_flux4`
(holding, respectively, `flux1`, `flux2`, `flux3` and `flux4`). -/
structure SFDCache (T S D : ℕ) where
  f0 : Option (Fin S → ℚ)
  f1 : Option (Fin S → ℚ)
  f3 : Option (Fin S → ℚ)
  f4 : Option (Fin S → ℚ)

/-- The cache as `__init__` leaves it: all slots `None`. -/
def initCache (T S D : ℕ) : SFDCache T S D := ⟨none, none, none, none⟩

/-- The property `SFD.flux1`: return the cached `_flux0` if set, else compute
`flux1`, store it in `_flux0` and return it. -/
def flux1Acc {T S D : ℕ} (u s a : Field T S D) (st : SFDCache T S D) :
    (Fin S → ℚ) × SFDCache T S D :=
  match st.f0 with
  | some v => (v, st)
  | none => (flux1 u s a, ⟨some (flux1 u s a), st.f1, st.f3, st.f4⟩)

/-- The property `SFD.flux2` (cached in `_flux1`). -/
def flux2Acc {T S D : ℕ} (u s a : Field T S D) (st : SFDCache T S D) :
    (Fin S → ℚ) × SFDCache T S D :=
  match st.f1 with
  | some v => (v, st)
  | none => (flux2 u s a, ⟨st.f0, some (flux2 u s a), st.f3, st.f4⟩)

/-- The property `SFD.flux3` (cached in `_flux3`). -/
def flux3Acc {T S D : ℕ} (u s a : Field T S D) (st : SFDCache T S D) :
    (Fin S → ℚ) × SFDCache T S D :=
  match st.f3 with
  | some v => (v, st)
  | none => (flux3 u s a, ⟨st.f0, st.f1, some (flux3 u s a), st.f4⟩)

/-- The property `SFD.flux4` (cached in `_flux4`). -/
def flux4Acc {T S D : ℕ} (u s a : Field T S D) (st : SFDCache T S D) :
    (Fin S → ℚ) × SFDCache T S D :=
  match st.f4 with
  | some v => (v, st)
  | none => (flux4 u s a, ⟨st.f0, st.f1, st.f3, some (flux4 u s a)⟩)

/-- The property `SFD.fluxes`: evaluate `flux1`, `flux2`, `flux3`, `flux4`
left to right (threading the cache) and return the 4-tuple. -/
def fluxesAcc {T S D : ℕ} (u s a : Field T S D) (st : SFDCache T S D) :
    ((Fin S → ℚ) × (Fin S → ℚ) × (Fin S → ℚ) × (Fin S → ℚ)) ×
      SFDCache T S D :=
  let p1 := flux1Acc u s a st
  let p2 := flux2Acc u s a p1.2
  let p3 := flux3Acc u s a p2.2
  let p4 := flux4Acc u s a p3.2
  ((p1.1, p2.1, p3.1, p4.1), p4.2)

/-- C9: each flux accessor is memoised — a second access returns the same
value and leaves the cache unchanged; `fluxes` on a fresh instance computes
the four flux values in order; and `fluxes` returns cached slots untouched
instead of recomputing them. -/
theorem flux_memoization {T S D : ℕ} (u s a : Field T S D)
    (st : SFDCache T S D) :
    (flux1Acc u s a (flux1Acc u s a st).2
        = ((flux1Acc u s a st).1, (flux1Acc u s a st).2)
      ∧ flux2Acc u s a (flux2Acc u s a st).2
        = ((flux2Acc u s a st).1, (flux2Acc u s a st).2)
      ∧ flux3Acc u s a (flux3Acc u s a st).2
        = ((flux3Acc u s a st).1, (flux3Acc u s a st).2)
      ∧ flux4Acc u s a (flux4Acc u s a st).2
        = ((flux4Acc u s a st).1, (flux4Acc u s a st).2))
    ∧ (fluxesAcc u s a (initCache T S D)).1
        = (flux1 u s a, flux2 u s a, flux3 u s a, flux4 u s a)
    ∧ (∀ w, st.f0 = some w → (fluxesAcc u s a st).1.1 = w)
    ∧ (∀ w, st.f1 = some w → (fluxesAcc u s a st).1.2.1 = w)
    ∧ (∀ w, st.f3 = some w → (fluxesAcc u s a st).1.2.2.1 = w)
    ∧ (∀ w, st.f4 = some w → (fluxesAcc u s a st).1.2.2.2 = w) := by
  obtain ⟨f0, f1, f3, f4⟩ := st
  cases f0 <;> cases f1 <;> cases f3 <;> cases f4 <;>
    simp [flux1Acc, flux2Acc, flux3Acc, flux4Acc, fluxesAcc, initCache]

theorem flux_memoization_witness :
    ((⟨some (fun _ => 5), none, none, none⟩ : SFDCache 1 1 1).f0
        = some (fun _ => (5 : ℚ)))
    ∧ (fluxesAcc onesW onesW onesW
        ⟨some (fun _ => 5), none, none, none⟩).1.1 = fun _ => (5 : ℚ) :=
  ⟨rfl,
    (flux_memoization onesW onesW onesW
        ⟨some (fun _ => 5), none, none, none⟩).2.2.1 (fun _ => 5) rfl⟩

/-! ### General n-dimensional array model

For the claims about shapes, axis bookkeeping and constructor validation the
numpy arrays are modelled as a shape together with a total indexing function
(multi-index to value); the reductions, `expand_dims` and broadcasting follow
numpy's documented semantics.  Operations that numpy rejects (invalid axis,
incompatible broadcast) return `none`. -/

/-- An n-dimensional array: a shape and the values, indexed by multi-index. -/
structure NDArr where
  shape : List ℕ
  data : List ℕ → ℚ

/-- numpy axis normalisation for an operation on a rank-`r` array: a
non-negative axis must satisfy `axis < r`; a negative axis resolves to
`axis + r`; anything else raises `AxisError`. -/
def normAxis (r : ℕ) (ax : ℤ) : Option ℕ :=
  if 0 ≤ ax ∧ ax < (r : ℤ) then some ax.toNat
  else if -(r : ℤ) ≤ ax ∧ ax < 0 then some (ax + r).toNat
  else none

/-- `np.ma.sum(A, axis=ax)`: drop the resolved axis from the shape and sum
the values along it. -/
def sumAxis (A : NDArr) (ax : ℤ) : Option NDArr :=
  (normAxis A.shape.length ax).map fun k =>
    ⟨A.shape.eraseIdx k,
      fun idx => ∑ j ∈ Finset.range (A.shape.getD k 0),
        A.data (idx.insertIdx k j)⟩

/-- `np.ma.mean(A, axis=ax)`: drop the resolved axis from the shape and
average the values along it. -/
def meanAxis (A : NDArr) (ax : ℤ) : Option NDArr :=
  (normAxis A.shape.length ax).map fun k =>
    ⟨A.shape.eraseIdx k,
      fun idx => (∑ j ∈ Finset.range (A.shape.getD k 0),
        A.data (idx.insertIdx k j)) / (A.shape.getD k 0 : ℚ)⟩

/-- `np.expand_dims(A, axis=ax)`: insert a size-1 axis.  The valid axis range
is `-(r+1) ≤ ax ≤ r`, i.e. exactly normalisation against rank `r + 1`. -/
def expandDims (A : NDArr) (ax : ℤ) : Option NDArr :=
  (normAxis (A.shape.length + 1) ax).map fun k =>
    ⟨A.shape.insertIdx k 1, fun idx => A.data (idx.eraseIdx k)⟩

/-- Broadcast combination of two axis lengths: equal, or one of them is 1. -/
def bdim (a b : ℕ) : Option ℕ :=
  if a = b then some a else if a = 1 then some b
  else if b = 1 then some a else none

/-- Broadcast of two shapes, both given reversed (least-significant axis
first), so that numpy's right-alignment becomes position-wise. -/
def bcastRev : List ℕ → List ℕ → Option (List ℕ)
  | [], ys => some ys
  | x :: xs, [] => some (x :: xs)
  | x :: xs, y :: ys =>
    (bdim x y).bind fun d => (bcastRev xs ys).map fun rest => d :: rest

/-- numpy broadcast of two shapes. -/
def bcast (xs ys : List ℕ) : Option (List ℕ) :=
  (bcastRev xs.reverse ys.reverse).map List.reverse

/-- Index into a broadcast operand: drop the extra leading axes of the output
index and clamp the index to 0 along the operand's size-1 axes. -/
def bindex (opShape idx : List ℕ) : List ℕ :=
  (opShape.zip (idx.drop (idx.length - opShape.length))).map
    fun p => if p.1 = 1 then 0 else p.2

/-- Elementwise product of two arrays under numpy broadcasting. -/
def emul (A B : NDArr) : Option NDArr :=
  (bcast A.shape B.shape).map fun sh =>
    ⟨sh, fun idx => A.data (bindex A.shape idx) * B.data (bindex B.shape idx)⟩

/-- Elementwise sum of two arrays under numpy broadcasting. -/
def eadd (A B : NDArr) : Option NDArr :=
  (bcast A.shape B.shape).map fun sh =>
    ⟨sh, fun idx => A.data (bindex A.shape idx) + B.data (bindex B.shape idx)⟩

/-- Elementwise difference of two arrays under numpy broadcasting. -/
def esub (A B : NDArr) : Option NDArr :=
  (bcast A.shape B.shape).map fun sh =>
    ⟨sh, fun idx => A.data (bindex A.shape idx) - B.data (bindex B.shape idx)⟩

/-- Elementwise quotient of two arrays under numpy broadcasting (plain field
division; the masking of zero divisors is treated in the masked model). -/
def ediv (A B : NDArr) : Option NDArr :=
  (bcast A.shape B.shape).map fun sh =>
    ⟨sh, fun idx => A.data (bindex A.shape idx) / B.data (bindex B.shape idx)⟩

/-- `SFD.avg_time` on the array model, for an instance with the given
`time_axis`. -/
def avg_timeND (time_axis : ℤ) (A : NDArr) : Option NDArr :=
  meanAxis A time_axis

/-- `SFD.int_depth` on the array model, for an instance with the given
`depth_axis`. -/
def int_depthND (depth_axis : ℤ) (A : NDArr) : Option NDArr :=
  sumAxis A depth_axis

/-- `SFD.avg_time_int_depth` on the array model:
`self.avg_time(self.int_depth(variable))` — note that `time_axis` is applied
to the array *after* the depth reduction has removed an axis. -/
def avg_time_int_depthND (time_axis depth_axis : ℤ) (A : NDArr) :
    Option NDArr :=
  (int_depthND depth_axis A).bind (avg_timeND time_axis)

/-- `SFD.expand_time` on the array model. -/
def expand_timeND (time_axis : ℤ) (A : NDArr) : Option NDArr :=
  expandDims A time_axis

/-- `SFD.expand_depth` on the array model. -/
def expand_depthND (depth_axis : ℤ) (A : NDArr) : Option NDArr :=
  expandDims A depth_axis

/-- `SFD._component` on the array model:
`func(variable * self.cross_section) / func(self.cross_section)`. -/
def componentND (func : NDArr → Option NDArr) (a v : NDArr) : Option NDArr := do
  let n ← emul v a
  let fn ← func n
  let fd ← func a
  ediv fn fd

/-- `SFD.component1` on the array model. -/
def component1ND (time_axis depth_axis : ℤ) (a v : NDArr) : Option NDArr :=
  componentND (avg_time_int_depthND time_axis depth_axis) a v

/-- `SFD.component2` on the array model (with `comp1` computed internally, as
in the flux properties). -/
def component2ND (time_axis depth_axis : ℤ) (a v : NDArr) : Option NDArr := do
  let c1 ← component1ND time_axis depth_axis a v
  let w ← componentND (int_depthND depth_axis) a v
  let e ← expand_timeND time_axis c1
  esub w e

/-- `SFD.component_` on the array model:
`variable - expand_depth(comp2 + expand_time(comp1))`. -/
def component_ND (time_axis depth_axis : ℤ) (a v : NDArr) : Option NDArr := do
  let c1 ← component1ND time_axis depth_axis a v
  let c2 ← component2ND time_axis depth_axis a v
  let e1 ← expand_timeND time_axis c1
  let si ← eadd c2 e1
  let e2 ← expand_depthND depth_axis si
  esub v e2

/-- `SFD.component3` on the array model (computing the remainder first, as
happens in `flux3`). -/
def component3ND (time_axis depth_axis : ℤ) (a v : NDArr) : Option NDArr := do
  let r ← component_ND time_axis depth_axis a v
  componentND (avg_timeND time_axis) a r

/-- `SFD.component4` on the array model (computing the remainder and
`comp3` internally, as happens in `flux4`). -/
def component4ND (time_axis depth_axis : ℤ) (a v : NDArr) : Option NDArr := do
  let r ← component_ND time_axis depth_axis a v
  let c3 ← componentND (avg_timeND time_axis) a r
  let e ← expand_timeND time_axis c3
  esub r e

/-- `SFD._calc_flux` on the array model. -/
def calc_fluxND (u s a : NDArr) (f_comp : NDArr → Option NDArr)
    (f_cross_section : NDArr → Option NDArr) : Option NDArr := do
  let cu ← f_comp u
  let cs ← f_comp s
  let ca ← f_cross_section a
  let p ← emul cu cs
  emul p ca

/-- `SFD.flux1` on the array model. -/
def flux1ND (time_axis depth_axis : ℤ) (u s a : NDArr) : Option NDArr :=
  calc_fluxND u s a (component1ND time_axis depth_axis a)
    (avg_time_int_depthND time_axis depth_axis)

/-- `SFD.flux2` on the array model. -/
def flux2ND (time_axis depth_axis : ℤ) (u s a : NDArr) : Option NDArr :=
  (calc_fluxND u s a (component2ND time_axis depth_axis a)
    (int_depthND depth_axis)).bind (avg_timeND time_axis)

/-- `SFD.flux3` on the array model. -/
def flux3ND (time_axis depth_axis : ℤ) (u s a : NDArr) : Option NDArr :=
  (calc_fluxND u s a (component3ND time_axis depth_axis a)
    (avg_timeND time_axis)).bind (int_depthND depth_axis)

/-- `SFD.flux4` on the array model (`lambda x: x` as the cross-section
reduction). -/
def flux4ND (time_axis depth_axis : ℤ) (u s a : NDArr) : Option NDArr :=
  (calc_fluxND u s a (component4ND time_axis depth_axis a)
    (fun x => some x)).bind (avg_time_int_depthND time_axis depth_axis)

/-- `SFD.fluxes` on the array model: the 4-tuple in order. -/
def fluxesND (time_axis depth_axis : ℤ) (u s a : NDArr) :
    Option NDArr × Option NDArr × Option NDArr × Option NDArr :=
  (flux1ND time_axis depth_axis u s a, flux2ND time_axis depth_axis u s a,
    flux3ND time_axis depth_axis u s a, flux4ND time_axis depth_axis u s a)

/-! ### Constructor validation (claims C3, C10) -/

/-- The state a successfully constructed `SFD` instance holds: the three
input arrays (held, not copied) and the two axis indices. -/
structure SFDState where
  flow : NDArr
  salinity : NDArr
  cross_section : NDArr
  time_axis : ℤ
  depth_axis : ℤ

/-- The `ValueError` message of `SFD.__init__`, naming all three shapes. -/
def mismatchMsg (fs ss cs : List ℕ) : String :=
  "`flow`, `salinity`, and `cross_section` must all have the same shape; " ++
    "`flow.shape=" ++ toString fs ++ "`, `salinity.shape=" ++ toString ss ++
    "`, `cross_section.shape=" ++ toString cs ++ "`"

/-- `SFD.__init__`: raise `ValueError` unless
`flow.shape == salinity.shape == cross_section.shape`; store the fields and
the axis keyword arguments (which are not validated). -/
def init (flow salinity cross_section : NDArr) (time_axis depth_axis : ℤ) :
    Except String SFDState :=
  if flow.shape = salinity.shape ∧ salinity.shape = cross_section.shape then
    Except.ok ⟨flow, salinity, cross_section, time_axis, depth_axis⟩
  else
    Except.error (mismatchMsg flow.shape salinity.shape cross_section.shape)

/-- C3: whenever the three shapes are not all equal (i.e. at least two of
them differ), construction fails with the `ValueError` message naming the
three shapes and no object is produced; with identical shapes it succeeds. -/
theorem init_shape_check (flow salinity cross_section : NDArr)
    (time_axis depth_axis : ℤ) :
    (¬ (flow.shape = salinity.shape ∧ salinity.shape = cross_section.shape) →
      init flow salinity cross_section time_axis depth_axis
        = Except.error
            (mismatchMsg flow.shape salinity.shape cross_section.shape))
    ∧ ((flow.shape = salinity.shape ∧ salinity.shape = cross_section.shape) →
      init flow salinity cross_section time_axis depth_axis
        = Except.ok
            ⟨flow, salinity, cross_section, time_axis, depth_axis⟩) := by
  constructor <;> intro h <;> simp [init, h]

theorem init_shape_check_witness :
    (¬ ((⟨[10, 8, 10], fun _ => 0⟩ : NDArr).shape
          = (⟨[10, 10, 10], fun _ => 0⟩ : NDArr).shape
        ∧ (⟨[10, 10, 10], fun _ => 0⟩ : NDArr).shape
          = (⟨[10, 10, 10], fun _ => 0⟩ : NDArr).shape))
    ∧ init ⟨[10, 8, 10], fun _ => 0⟩ ⟨[10, 10, 10], fun _ => 0⟩
        ⟨[10, 10, 10], fun _ => 0⟩ 0 (-1)
      = Except.error (mismatchMsg [10, 8, 10] [10, 10, 10] [10, 10, 10])
    ∧ init ⟨[10, 10, 10], fun _ => 0⟩ ⟨[10, 10, 10], fun _ => 0⟩
        ⟨[10, 10, 10], fun _ => 0⟩ 0 (-1)
      = Except.ok ⟨⟨[10, 10, 10], fun _ => 0⟩, ⟨[10, 10, 10], fun _ => 0⟩,
          ⟨[10, 10, 10], fun _ => 0⟩, 0, -1⟩ := by
  refine ⟨by decide, ?_, ?_⟩
  · exact (init_shape_check ⟨[10, 8, 10], fun _ => 0⟩
      ⟨[10, 10, 10], fun _ => 0⟩ ⟨[10, 10, 10], fun _ => 0⟩ 0 (-1)).1
      (by decide)
  · exact (init_shape_check ⟨[10, 10, 10], fun _ => 0⟩
      ⟨[10, 10, 10], fun _ => 0⟩ ⟨[10, 10, 10], fun _ => 0⟩ 0 (-1)).2
      ⟨rfl, rfl⟩

/-- C10: construction never validates `time_axis` and `depth_axis`: for every
pair of integers (equal or out of range for the rank), construction with
identically shaped fields succeeds, storing the axes as given; only the shape
match is checked. -/
theorem init_no_axis_validation (flow salinity cross_section : NDArr)
    (time_axis depth_axis : ℤ)
    (h1 : flow.shape = salinity.shape)
    (h2 : salinity.shape = cross_section.shape) :
    init flow salinity cross_section time_axis depth_axis
      = Except.ok ⟨flow, salinity, cross_section, time_axis, depth_axis⟩ := by
  simp [init, h1, h2]

theorem init_no_axis_validation_witness :
    ((⟨[2, 3, 4], fun _ => 0⟩ : NDArr).shape
        = (⟨[2, 3, 4], fun _ => 0⟩ : NDArr).shape
      ∧ (⟨[2, 3, 4], fun _ => 0⟩ : NDArr).shape
        = (⟨[2, 3, 4], fun _ => 0⟩ : NDArr).shape)
    ∧ init ⟨[2, 3, 4], fun _ => 0⟩ ⟨[2, 3, 4], fun _ => 0⟩
        ⟨[2, 3, 4], fun _ => 0⟩ 99 99
      = Except.ok ⟨⟨[2, 3, 4], fun _ => 0⟩, ⟨[2, 3, 4], fun _ => 0⟩,
          ⟨[2, 3, 4], fun _ => 0⟩, 99, 99⟩ :=
  ⟨⟨rfl, rfl⟩,
    init_no_axis_validation ⟨[2, 3, 4], fun _ => 0⟩ ⟨[2, 3, 4], fun _ => 0⟩
      ⟨[2, 3, 4], fun _ => 0⟩ 99 99 rfl rfl⟩

/-! ### Axis bookkeeping in `avg_time_int_depth` (claim C5) -/

/-- Modelled from the spec: the behaviour the spec ascribes to
`averageTimeIntegrateDepth` for an arbitrary valid axis configuration — sum
the field over its depth axis and average it over its *original* time axis,
"with axis indices tracked correctly after the first reduction removes an
axis".  Both axes are resolved against the original array (and must denote
distinct axes); after the depth axis is removed, the time axis index is
shifted down when it lay beyond the removed axis. -/
def specAvgTimeIntDepth (time_axis depth_axis : ℤ) (A : NDArr) :
    Option NDArr :=
  match normAxis A.shape.length time_axis,
      normAxis A.shape.length depth_axis with
  | some tk, some dk =>
    if tk = dk then none
    else (sumAxis A (dk : ℤ)).bind fun B =>
      meanAxis B (if tk < dk then (tk : ℤ) else (tk : ℤ) - 1)
  | _, _ => none

/-- A concrete `(2, 3, 4)`-shaped array for the axis-bookkeeping claim. -/
def arr234 : NDArr := ⟨[2, 3, 4], fun _ => 0⟩

/-- C5 counterexample: with `time_axis = 1`, `depth_axis = 0` — a valid pair
of distinct axes of a three-axis array — the code reduces the *wrong* axis:
it returns a shape-`[3]` array (it averaged what was originally axis 2),
while summing over the depth axis and averaging over the time axis leaves
shape `[4]`. -/
theorem avg_time_int_depth_axis_counterexample :
    (avg_time_int_depthND 1 0 arr234).map NDArr.shape = some [3]
    ∧ (specAvgTimeIntDepth 1 0 arr234).map NDArr.shape = some [4]
    ∧ avg_time_int_depthND 1 0 arr234 ≠ specAvgTimeIntDepth 1 0 arr234 := by
  have h1 : (avg_time_int_depthND 1 0 arr234).map NDArr.shape
      = some [3] := by decide
  have h2 : (specAvgTimeIntDepth 1 0 arr234).map NDArr.shape
      = some [4] := by decide
  refine ⟨h1, h2, fun heq => ?_⟩
  rw [heq, h2] at h1
  exact absurd h1 (by decide)

lemma normAxis_nonneg {r : ℕ} {ax : ℤ} (h0 : 0 ≤ ax) (hlt : ax < (r : ℤ)) :
    normAxis r ax = some ax.toNat := by
  unfold normAxis
  rw [if_pos ⟨h0, hlt⟩]

lemma normAxis_neg {r : ℕ} {ax : ℤ} (h0 : -(r : ℤ) ≤ ax) (hlt : ax < 0) :
    normAxis r ax = some (ax + r).toNat := by
  unfold normAxis
  rw [if_neg (by omega), if_pos ⟨h0, hlt⟩]

lemma normAxis_cases {r : ℕ} {ax : ℤ} {k : ℕ}
    (h : normAxis r ax = some k) :
    (0 ≤ ax ∧ ax < (r : ℤ) ∧ (k : ℤ) = ax)
      ∨ (ax < 0 ∧ -(r : ℤ) ≤ ax ∧ (k : ℤ) = ax + r) := by
  unfold normAxis at h
  split_ifs at h with h1 h2
  · injection h with h'
    subst h'
    exact Or.inl ⟨h1.1, h1.2, by omega⟩
  · injection h with h'
    subst h'
    exact Or.inr ⟨h2.2, h2.1, by omega⟩

/-- C5 amended: the code's `avg_time(int_depth(v))` applies the raw
`time_axis` to the already-reduced array, so it agrees with the spec's
description (sum over depth, average over the original time axis) exactly
when the raw index still denotes the original time axis there: a
*non-negative* `time_axis` resolving below the resolved depth axis, or a
*negative* `time_axis` resolving above it (as with the defaults
`time_axis = 0`, `depth_axis = -1`).  For every other distinct pair the code
reduces a wrong axis or fails. -/
theorem avg_time_int_depth_axis_tracking (A : NDArr)
    (time_axis depth_axis : ℤ) (tk dk : ℕ)
    (ht : normAxis A.shape.length time_axis = some tk)
    (hd : normAxis A.shape.length depth_axis = some dk)
    (hcond : (0 ≤ time_axis ∧ tk < dk) ∨ (time_axis < 0 ∧ dk < tk)) :
    avg_time_int_depthND time_axis depth_axis A
      = specAvgTimeIntDepth time_axis depth_axis A := by
  have hdk : dk < A.shape.length := by
    rcases normAxis_cases hd with ⟨_, h, he⟩ | ⟨_, _, he⟩ <;> omega
  have htk : tk < A.shape.length := by
    rcases normAxis_cases ht with ⟨_, h, he⟩ | ⟨_, _, he⟩ <;> omega
  have hne : ¬ tk = dk := by rcases hcond with ⟨_, h⟩ | ⟨_, h⟩ <;> omega
  have hsum : sumAxis A depth_axis
      = some ⟨A.shape.eraseIdx dk,
          fun idx => ∑ j ∈ Finset.range (A.shape.getD dk 0),
            A.data (idx.insertIdx dk j)⟩ := by
    unfold sumAxis
    rw [hd]
    rfl
  have hsum' : sumAxis A (dk : ℤ)
      = some ⟨A.shape.eraseIdx dk,
          fun idx => ∑ j ∈ Finset.range (A.shape.getD dk 0),
            A.data (idx.insertIdx dk j)⟩ := by
    unfold sumAxis
    rw [normAxis_nonneg (Int.natCast_nonneg dk) (by exact_mod_cast hdk)]
    simp
  have hBlen : (A.shape.eraseIdx dk).length = A.shape.length - 1 := by
    have := List.length_eraseIdx_add_one hdk
    omega
  have hax : normAxis (A.shape.eraseIdx dk).length time_axis
      = normAxis (A.shape.eraseIdx dk).length
          (if tk < dk then (tk : ℤ) else (tk : ℤ) - 1) := by
    rw [hBlen]
    rcases hcond with ⟨h0, hlt⟩ | ⟨h0, hlt⟩
    · rcases normAxis_cases ht with ⟨_, _, he⟩ | ⟨hc, _, _⟩
      · rw [if_pos hlt, normAxis_nonneg h0 (by omega),
          normAxis_nonneg (Int.natCast_nonneg tk) (by omega)]
        congr 1
        omega
      · omega
    · rcases normAxis_cases ht with ⟨hc, _, _⟩ | ⟨_, hc, he⟩
      · omega
      · rw [if_neg (by omega), normAxis_neg (by omega) h0,
          normAxis_nonneg (by omega) (by omega)]
        congr 1
        omega
  unfold specAvgTimeIntDepth
  rw [ht, hd]
  simp only [if_neg hne]
  unfold avg_time_int_depthND int_depthND avg_timeND
  rw [hsum, hsum']
  simp only [Option.some_bind]
  unfold meanAxis
  rw [hax]

/-! ### Output shapes of the fluxes (claim C4) -/

lemma bdim_self (a : ℕ) : bdim a a = some a := by simp [bdim]

lemma bdim_one_left (a : ℕ) : bdim 1 a = some a := by
  rcases eq_or_ne a 1 with h | h <;> simp [bdim, h]

lemma bdim_one_right (a : ℕ) : bdim a 1 = some a := by
  rcases eq_or_ne a 1 with h | h <;> simp [bdim, h]

lemma normAxis_3_0 : normAxis 3 0 = some 0 := by decide

lemma normAxis_3_neg1 : normAxis 3 (-1) = some 2 := by decide

lemma normAxis_2_0 : normAxis 2 0 = some 0 := by decide

lemma normAxis_2_neg1 : normAxis 2 (-1) = some 1 := by decide

set_option maxHeartbeats 3000000 in
/-- C4: for every input triple of shape `(T, S, D)` under the default axes
(`time_axis = 0`, `depth_axis = -1`), each of `flux1`..`flux4` is produced
(no error) with shape `(S,)` — only the space axis remains — and `fluxes`
returns the 4-tuple of them in order. -/
theorem flux_output_shapes (T S D : ℕ) (u s a : NDArr)
    (hu : u.shape = [T, S, D]) (hs : s.shape = [T, S, D])
    (ha : a.shape = [T, S, D]) :
    (flux1ND 0 (-1) u s a).map NDArr.shape = some [S]
    ∧ (flux2ND 0 (-1) u s a).map NDArr.shape = some [S]
    ∧ (flux3ND 0 (-1) u s a).map NDArr.shape = some [S]
    ∧ (flux4ND 0 (-1) u s a).map NDArr.shape = some [S]
    ∧ fluxesND 0 (-1) u s a
      = (flux1ND 0 (-1) u s a, flux2ND 0 (-1) u s a,
          flux3ND 0 (-1) u s a, flux4ND 0 (-1) u s a) := by
  refine ⟨?_, ?_, ?_, ?_, rfl⟩
  · simp [flux1ND, calc_fluxND, component1ND, componentND,
      avg_time_int_depthND, avg_timeND, int_depthND, sumAxis, meanAxis,
      emul, ediv, bcast, bcastRev, bdim_self, bdim_one_left, bdim_one_right,
      hu, hs, ha, normAxis_3_0, normAxis_3_neg1, normAxis_2_0,
      normAxis_2_neg1]
  · simp [flux2ND, calc_fluxND, component2ND, component1ND, componentND,
      avg_time_int_depthND, avg_timeND, int_depthND, expand_timeND,
      sumAxis, meanAxis, expandDims, emul, ediv, esub,
      bcast, bcastRev, bdim_self, bdim_one_left, bdim_one_right,
      hu, hs, ha, normAxis_3_0, normAxis_3_neg1, normAxis_2_0,
      normAxis_2_neg1]
  · simp [flux3ND, calc_fluxND, component3ND, component_ND, component2ND,
      component1ND, componentND, avg_time_int_depthND, avg_timeND,
      int_depthND, expand_timeND, expand_depthND, sumAxis, meanAxis,
      expandDims, emul, ediv, esub, eadd, bcast, bcastRev, bdim_self,
      bdim_one_left, bdim_one_right, hu, hs, ha, normAxis_3_0,
      normAxis_3_neg1, normAxis_2_0, normAxis_2_neg1]
  · simp [flux4ND, calc_fluxND, component4ND, component3ND, component_ND,
      component2ND, component1ND, componentND, avg_time_int_depthND,
      avg_timeND, int_depthND, expand_timeND, expand_depthND, sumAxis,
      meanAxis, expandDims, emul, ediv, esub, eadd, bcast, bcastRev,
      bdim_self, bdim_one_left, bdim_one_right, hu, hs, ha, normAxis_3_0,
      normAxis_3_neg1, normAxis_2_0, normAxis_2_neg1]

theorem flux_output_shapes_witness :
    ((⟨[2, 3, 4], fun _ => 0⟩ : NDArr).shape = [2, 3, 4]
      ∧ (⟨[2, 3, 4], fun _ => 0⟩ : NDArr).shape = [2, 3, 4]
      ∧ (⟨[2, 3, 4], fun _ => 0⟩ : NDArr).shape = [2, 3, 4])
    ∧ (flux1ND 0 (-1) ⟨[2, 3, 4], fun _ => 0⟩ ⟨[2, 3, 4], fun _ => 0⟩
        ⟨[2, 3, 4], fun _ => 0⟩).map NDArr.shape = some [3]
    ∧ (flux4ND 0 (-1) ⟨[2, 3, 4], fun _ => 0⟩ ⟨[2, 3, 4], fun _ => 0⟩
        ⟨[2, 3, 4], fun _ => 0⟩).map NDArr.shape = some [3] :=
  ⟨⟨rfl, rfl, rfl⟩,
    (flux_output_shapes 2 3 4 ⟨[2, 3, 4], fun _ => 0⟩
      ⟨[2, 3, 4], fun _ => 0⟩ ⟨[2, 3, 4], fun _ => 0⟩ rfl rfl rfl).1,
    (flux_output_shapes 2 3 4 ⟨[2, 3, 4], fun _ => 0⟩
      ⟨[2, 3, 4], fun _ => 0⟩ ⟨[2, 3, 4], fun _ => 0⟩ rfl rfl rfl).2.2.2.1⟩

theorem avg_time_int_depth_axis_tracking_witness :
    (normAxis arr234.shape.length 0 = some 0
      ∧ normAxis arr234.shape.length (-1) = some 2
      ∧ ((0 : ℤ) ≤ 0 ∧ 0 < 2))
    ∧ avg_time_int_depthND 0 (-1) arr234
      = specAvgTimeIntDepth 0 (-1) arr234 :=
  ⟨⟨by decide, by decide, by decide⟩,
    avg_time_int_depth_axis_tracking arr234 0 (-1) 0 2 (by decide)
      (by decide) (Or.inl (by decide))⟩

end SFD
